import Mathlib

/-!
Shallow embedding of `src/chunk_type.rs` from the rust-pngme repository.

The Rust module defines `ChunkType`, a validated 4-byte PNG chunk-type tag:
  * `TryFrom<[u8; 4]>` (byte construction, with an ASCII-alphabetic check and
    a defensive UTF-8 re-check),
  * `FromStr` (text construction: length-4 check on the string's bytes,
    then the same ASCII-alphabetic check),
  * `Display` (renders the stored bytes via `str::from_utf8(..).unwrap()`),
  * bit-5 classification predicates (`is_critical`, `is_public`,
    `is_reserved_bit_valid`, `is_safe_to_copy`, `is_valid`).

Bytes are modelled as `Nat` (with `< 256` side conditions where a claim
quantifies over arbitrary byte arrays); a `[u8; 4]` is a 4-tuple of `Nat`;
a Rust `&str` input is modelled by the list of bytes of its UTF-8 encoding.
The `&'static str` error values of the source are modelled by the inductive
`PngError`, one constructor per distinct error-message constant, with
`PngError.message` giving the literal text.
-/

namespace Pngme

/-- A `[u8; 4]` value: four byte values in order. -/
abbrev Bytes4 := Nat × Nat × Nat × Nat

/-- The four bytes of a `[u8; 4]` in order, as a list (as `&value[..]` would
iterate them). -/
def bytes4ToList (v : Bytes4) : List Nat :=
  [v.1, v.2.1, v.2.2.1, v.2.2.2]

/-- `struct ChunkType { type_code: [u8; 4] }`. -/
structure ChunkType where
  type_code : Bytes4
deriving DecidableEq, Repr

/-- The three distinct `&'static str` error constants of the module, one
constructor each. -/
inductive PngError where
  | invalidBytes
  | utf8Error
  | wrongLength
deriving DecidableEq, Repr

/-- The literal message text each error constant carries in the source. -/
def PngError.message : PngError → String
  | .invalidBytes => "Bytes must represent valid uppercase or lowercase ASCII letters!"
  | .utf8Error => "Failure in parsing UTF-8!"
  | .wrongLength => "Unable to convert string! Ensure string is 4 bytes!"

/-- `const BIT_MASK: u8 = 0b0010_0000;` -/
def BIT_MASK : Nat := 32

/-- Rust `u8::is_ascii_alphabetic`: the byte is in `b'A'..=b'Z'` or
`b'a'..=b'z'`. -/
def is_ascii_alphabetic (b : Nat) : Bool :=
  (65 ≤ b && b ≤ 90) || (97 ≤ b && b ≤ 122)

/-- `fn bytes_are_valid(bytes: [u8; 4]) -> bool`:
`bytes.iter().all(|x| x.is_ascii_alphabetic())`. -/
def bytes_are_valid (bytes : Bytes4) : Bool :=
  (bytes4ToList bytes).all is_ascii_alphabetic

/-- The standard UTF-8 acceptance automaton, consuming one byte per step.
The state is `none` between characters, or `some (lo, hi, k)` inside a
multi-byte character: the next byte must lie in `lo..hi` and `k` further
continuation bytes (each `0x80..0xBF`) follow it. The transitions on a
fresh leading byte are the rows of the Unicode well-formed-sequence table
(no overlong forms, no surrogates, no code points above U+10FFFF). -/
def utf8Run : Option (Nat × Nat × Nat) → List Nat → Bool
  | none, [] => true
  | some _, [] => false
  | none, b :: rest =>
    if b < 0x80 then utf8Run none rest
    else if 0xC2 ≤ b && b ≤ 0xDF then utf8Run (some (0x80, 0xBF, 0)) rest
    else if b == 0xE0 then utf8Run (some (0xA0, 0xBF, 1)) rest
    else if (0xE1 ≤ b && b ≤ 0xEC) || (0xEE ≤ b && b ≤ 0xEF) then
      utf8Run (some (0x80, 0xBF, 1)) rest
    else if b == 0xED then utf8Run (some (0x80, 0x9F, 1)) rest
    else if b == 0xF0 then utf8Run (some (0x90, 0xBF, 2)) rest
    else if 0xF1 ≤ b && b ≤ 0xF3 then utf8Run (some (0x80, 0xBF, 2)) rest
    else if b == 0xF4 then utf8Run (some (0x80, 0x8F, 2)) rest
    else false
  | some (lo, hi, 0), b :: rest =>
    if lo ≤ b && b ≤ hi then utf8Run none rest else false
  | some (lo, hi, k + 1), b :: rest =>
    if lo ≤ b && b ≤ hi then utf8Run (some (0x80, 0xBF, k)) rest else false

/-- Validity of a byte sequence as UTF-8, as `str::from_utf8` checks it. -/
def utf8Valid (s : List Nat) : Bool :=
  utf8Run none s

/-- `impl TryFrom<[u8; 4]> for ChunkType`: reject if `bytes_are_valid` fails
(`INVALID_BYTES_MSG`); otherwise accept when `str::from_utf8(&value)`
succeeds, and return the UTF-8 error message when it does not. -/
def ChunkType.tryFrom (value : Bytes4) : Except PngError ChunkType :=
  if !bytes_are_valid value then
    .error .invalidBytes
  else if utf8Valid (bytes4ToList value) then
    .ok { type_code := value }
  else
    .error .utf8Error

/-- `s.as_bytes().try_into()` for a target of `[u8; 4]`: succeeds exactly on
byte slices of length 4. -/
def listToBytes4 : List Nat → Option Bytes4
  | [a, b, c, d] => some (a, b, c, d)
  | _ => none

/-- `impl FromStr for ChunkType`, on the UTF-8 bytes of the input string:
`try_into` to `[u8; 4]` (else the wrong-length error), then the same
`bytes_are_valid` check as the byte path. -/
def ChunkType.fromStr (s : List Nat) : Except PngError ChunkType :=
  match listToBytes4 s with
  | some type_cd_val =>
    if !bytes_are_valid type_cd_val then
      .error .invalidBytes
    else
      .ok { type_code := type_cd_val }
  | none => .error .wrongLength

/-- `fn bytes(&self) -> [u8; 4] { self.type_code }` -/
def ChunkType.bytes (c : ChunkType) : Bytes4 :=
  c.type_code

/-- `impl Display for ChunkType`: writes `str::from_utf8(&self.type_code).unwrap()`.
The `unwrap` panic is modelled by `none`; a successful rendering is `some`
of the bytes of the produced string. -/
def ChunkType.display (c : ChunkType) : Option (List Nat) :=
  if utf8Valid (bytes4ToList c.type_code) then
    some (bytes4ToList c.type_code)
  else
    none

/-- `fn is_critical(&self) -> bool { self.type_code[0] & BIT_MASK == 0u8 }` -/
def ChunkType.is_critical (c : ChunkType) : Bool :=
  c.type_code.1 &&& BIT_MASK == 0

/-- `fn is_public(&self) -> bool { self.type_code[1] & BIT_MASK == 0u8 }` -/
def ChunkType.is_public (c : ChunkType) : Bool :=
  c.type_code.2.1 &&& BIT_MASK == 0

/-- `fn is_reserved_bit_valid(&self) -> bool { self.type_code[2] & BIT_MASK == 0u8 }` -/
def ChunkType.is_reserved_bit_valid (c : ChunkType) : Bool :=
  c.type_code.2.2.1 &&& BIT_MASK == 0

/-- `fn is_safe_to_copy(&self) -> bool { self.type_code[3] & BIT_MASK == BIT_MASK }` -/
def ChunkType.is_safe_to_copy (c : ChunkType) : Bool :=
  c.type_code.2.2.2 &&& BIT_MASK == BIT_MASK

/-- `fn is_valid(&self) -> bool { self.is_reserved_bit_valid() }` -/
def ChunkType.is_valid (c : ChunkType) : Bool :=
  c.is_reserved_bit_valid

/-- A `ChunkType` value reachable through one of the two fallible
constructors (the only way the source ever builds one outside the literal
struct expressions inside those constructors). -/
def ChunkType.constructed (t : ChunkType) : Prop :=
  (∃ v, ChunkType.tryFrom v = .ok t) ∨ (∃ s, ChunkType.fromStr s = .ok t)

/-! ### Basic characterization lemmas -/

theorem alpha_lt_128 (b : Nat) (h : is_ascii_alphabetic b = true) : b < 128 := by
  simp only [is_ascii_alphabetic, Bool.or_eq_true, Bool.and_eq_true, decide_eq_true_eq] at h
  omega

theorem alpha_lt_256 (b : Nat) (h : is_ascii_alphabetic b = true) : b < 256 :=
  Nat.lt_of_lt_of_le (alpha_lt_128 b h) (by omega)

theorem bytes_are_valid_iff (v : Bytes4) :
    bytes_are_valid v = true ↔
      is_ascii_alphabetic v.1 = true ∧ is_ascii_alphabetic v.2.1 = true ∧
      is_ascii_alphabetic v.2.2.1 = true ∧ is_ascii_alphabetic v.2.2.2 = true := by
  rw [bytes_are_valid, bytes4ToList]
  simp only [List.all_cons, List.all_nil, Bool.and_eq_true, Bool.and_true, and_true]

theorem utf8Run_cons_ascii (b : Nat) (rest : List Nat) (h : b < 128) :
    utf8Run none (b :: rest) = utf8Run none rest := by
  rw [utf8Run, if_pos h]

theorem utf8Valid_of_valid (v : Bytes4) (h : bytes_are_valid v = true) :
    utf8Valid (bytes4ToList v) = true := by
  rw [bytes_are_valid_iff] at h
  obtain ⟨h1, h2, h3, h4⟩ := h
  rw [bytes4ToList, utf8Valid, utf8Run_cons_ascii _ _ (alpha_lt_128 _ h1),
    utf8Run_cons_ascii _ _ (alpha_lt_128 _ h2),
    utf8Run_cons_ascii _ _ (alpha_lt_128 _ h3),
    utf8Run_cons_ascii _ _ (alpha_lt_128 _ h4)]
  rfl

theorem tryFrom_ok_iff (v : Bytes4) (t : ChunkType) :
    ChunkType.tryFrom v = .ok t ↔ bytes_are_valid v = true ∧ t.type_code = v := by
  constructor
  · intro h
    unfold ChunkType.tryFrom at h
    by_cases hv : bytes_are_valid v = true
    · rw [hv, utf8Valid_of_valid v hv] at h
      simp only [Bool.not_true, Bool.false_eq_true, if_false, if_true] at h
      cases h
      exact ⟨hv, rfl⟩
    · rw [Bool.not_eq_true] at hv
      rw [hv] at h
      simp at h
  · rintro ⟨hv, ht⟩
    unfold ChunkType.tryFrom
    rw [hv, utf8Valid_of_valid v hv]
    simp only [Bool.not_true, Bool.false_eq_true, if_false, if_true]
    rw [← ht]

theorem tryFrom_invalid (v : Bytes4) (h : bytes_are_valid v = false) :
    ChunkType.tryFrom v = .error .invalidBytes := by
  unfold ChunkType.tryFrom
  rw [h]
  simp

theorem listToBytes4_some_iff (s : List Nat) (v : Bytes4) :
    listToBytes4 s = some v ↔ s = bytes4ToList v := by
  obtain ⟨a, b, c, d⟩ := v
  match s with
  | [] => simp [listToBytes4, bytes4ToList]
  | [x1] => simp [listToBytes4, bytes4ToList]
  | [x1, x2] => simp [listToBytes4, bytes4ToList]
  | [x1, x2, x3] => simp [listToBytes4, bytes4ToList]
  | [x1, x2, x3, x4] =>
    simp only [listToBytes4, bytes4ToList, Option.some_inj, List.cons.injEq, and_true,
      Prod.mk.injEq]
  | x1 :: x2 :: x3 :: x4 :: x5 :: tl => simp [listToBytes4, bytes4ToList]

theorem listToBytes4_none_iff (s : List Nat) :
    listToBytes4 s = none ↔ s.length ≠ 4 := by
  match s with
  | [] => simp [listToBytes4]
  | [x1] => simp [listToBytes4]
  | [x1, x2] => simp [listToBytes4]
  | [x1, x2, x3] => simp [listToBytes4]
  | [x1, x2, x3, x4] => simp [listToBytes4]
  | x1 :: x2 :: x3 :: x4 :: x5 :: tl => simp [listToBytes4]

theorem fromStr_ok_iff (s : List Nat) (t : ChunkType) :
    ChunkType.fromStr s = .ok t ↔
      s = bytes4ToList t.type_code ∧ bytes_are_valid t.type_code = true := by
  constructor
  · intro h
    unfold ChunkType.fromStr at h
    split at h
    · rename_i v hv
      by_cases hb : bytes_are_valid v = true
      · rw [hb] at h
        simp only [Bool.not_true, Bool.false_eq_true, if_false] at h
        cases h
        exact ⟨(listToBytes4_some_iff s v).mp hv, hb⟩
      · rw [Bool.not_eq_true] at hb
        rw [hb] at h
        simp at h
    · cases h
  · rintro ⟨hs, hb⟩
    unfold ChunkType.fromStr
    rw [(listToBytes4_some_iff s _).mpr hs]
    simp only [hb, Bool.not_true, Bool.false_eq_true, if_false]

theorem constructed_valid (t : ChunkType) (h : t.constructed) :
    bytes_are_valid t.type_code = true := by
  rcases h with ⟨v, hv⟩ | ⟨s, hs⟩
  · obtain ⟨hb, ht⟩ := (tryFrom_ok_iff v t).mp hv
    rw [ht]
    exact hb
  · exact ((fromStr_ok_iff s t).mp hs).2

set_option maxRecDepth 8192 in
theorem land32_testBit5 :
    ∀ b : Fin 256, ((b.val &&& 32) == 0) = !(Nat.testBit b.val 5) ∧
      ((b.val &&& 32) == 32) = Nat.testBit b.val 5 := by decide

theorem byte_land32_zero (b : Nat) (hb : b < 256) :
    ((b &&& 32) == 0) = !(Nat.testBit b 5) :=
  (land32_testBit5 ⟨b, hb⟩).1

theorem byte_land32_set (b : Nat) (hb : b < 256) :
    ((b &&& 32) == 32) = Nat.testBit b 5 :=
  (land32_testBit5 ⟨b, hb⟩).2

/-! ### The claims -/

/-- Claim C1: for every 4-byte array in which all four bytes are ASCII
alphabetic letters, `TryFrom<[u8; 4]>` succeeds and `bytes()` on the result
returns exactly the input array, byte order preserved, no case change. -/
theorem claim_C1 (v : Bytes4)
    (h1 : is_ascii_alphabetic v.1 = true) (h2 : is_ascii_alphabetic v.2.1 = true)
    (h3 : is_ascii_alphabetic v.2.2.1 = true) (h4 : is_ascii_alphabetic v.2.2.2 = true) :
    ∃ t, ChunkType.tryFrom v = .ok t ∧ t.bytes = v :=
  ⟨⟨v⟩, (tryFrom_ok_iff v ⟨v⟩).mpr ⟨(bytes_are_valid_iff v).mpr ⟨h1, h2, h3, h4⟩, rfl⟩, rfl⟩

/-- Witness for C1 at the test vector `b"RuSt" = [82, 117, 83, 116]`. -/
theorem claim_C1_witness :
    ∃ t, ChunkType.tryFrom (82, 117, 83, 116) = .ok t ∧ t.bytes = (82, 117, 83, 116) :=
  claim_C1 (82, 117, 83, 116) (by decide) (by decide) (by decide) (by decide)

/-- Claim C2: for every 4-byte array with at least one non-ASCII-letter byte,
`TryFrom<[u8; 4]>` fails with the invalid-bytes error, which carries the one
fixed descriptive message and no per-byte diagnostic. -/
theorem claim_C2 (v : Bytes4)
    ( _hb : v.1 < 256 ∧ v.2.1 < 256 ∧ v.2.2.1 < 256 ∧ v.2.2.2 < 256)
    (h : ¬ (is_ascii_alphabetic v.1 = true ∧ is_ascii_alphabetic v.2.1 = true ∧
            is_ascii_alphabetic v.2.2.1 = true ∧ is_ascii_alphabetic v.2.2.2 = true)) :
    ChunkType.tryFrom v = .error .invalidBytes ∧
      PngError.message .invalidBytes =
        "Bytes must represent valid uppercase or lowercase ASCII letters!" := by
  refine ⟨?_, rfl⟩
  cases hbv : bytes_are_valid v with
  | false => exact tryFrom_invalid v hbv
  | true => exact absurd ((bytes_are_valid_iff v).mp hbv) h

/-- Witness for C2 at the test vector `[240, 159, 153, 136]`. -/
theorem claim_C2_witness :
    ChunkType.tryFrom (240, 159, 153, 136) = .error .invalidBytes ∧
      PngError.message .invalidBytes =
        "Bytes must represent valid uppercase or lowercase ASCII letters!" :=
  claim_C2 (240, 159, 153, 136) (by decide) (by decide)

/-- Claim C3: every text input whose UTF-8 byte encoding does not have
length 4 fails `FromStr` with the wrong-length error and its exact message,
and that error is raised only on the text-construction path (the byte path
never returns it). -/
theorem claim_C3 :
    (∀ s : List Nat, s.length ≠ 4 →
      ChunkType.fromStr s = .error .wrongLength ∧
        PngError.message .wrongLength = "Unable to convert string! Ensure string is 4 bytes!") ∧
    (∀ v : Bytes4, ChunkType.tryFrom v ≠ .error .wrongLength) := by
  constructor
  · intro s hs
    refine ⟨?_, rfl⟩
    unfold ChunkType.fromStr
    rw [(listToBytes4_none_iff s).mpr hs]
  · intro v h
    unfold ChunkType.tryFrom at h
    split at h
    · simp at h
    · split at h
      · simp at h
      · simp at h

/-- Witness for C3 at the 2-byte input `[82, 117]` and the byte input
`[82, 117, 83, 116]`. -/
theorem claim_C3_witness :
    (ChunkType.fromStr [82, 117] = .error .wrongLength ∧
      PngError.message .wrongLength = "Unable to convert string! Ensure string is 4 bytes!") ∧
    ChunkType.tryFrom (82, 117, 83, 116) ≠ .error .wrongLength :=
  ⟨claim_C3.1 [82, 117] (by decide), claim_C3.2 (82, 117, 83, 116)⟩

/-- Claim C4: round-trip — for every `ChunkType` obtained from either
successful construction path, `Display` succeeds and produces the stored
bytes, and `FromStr` on that rendering succeeds and returns an equal tag. -/
theorem claim_C4 (t : ChunkType) (h : t.constructed) :
    t.display = some (bytes4ToList t.type_code) ∧
      ChunkType.fromStr (bytes4ToList t.type_code) = .ok t := by
  constructor
  · unfold ChunkType.display
    rw [utf8Valid_of_valid _ (constructed_valid t h)]
    simp
  · exact (fromStr_ok_iff _ t).mpr ⟨rfl, constructed_valid t h⟩

/-- Witness for C4 at the tag built from `[82, 117, 83, 116]`. -/
theorem claim_C4_witness :
    (ChunkType.mk (82, 117, 83, 116)).display = some (bytes4ToList (82, 117, 83, 116)) ∧
      ChunkType.fromStr (bytes4ToList (82, 117, 83, 116)) = .ok (ChunkType.mk (82, 117, 83, 116)) :=
  claim_C4 ⟨(82, 117, 83, 116)⟩ (Or.inl ⟨(82, 117, 83, 116), rfl⟩)

/-- Claim C5: case-bit laws. For every constructed tag, `is_critical`,
`is_public` and `is_reserved_bit_valid` are true exactly when bit 5 (value
32) of bytes 0, 1 and 2 respectively is clear, `is_safe_to_copy` has the
inverted polarity (true exactly when bit 5 of byte 3 is set), and each
predicate depends only on its one byte. -/
theorem claim_C5 (t : ChunkType) (h : t.constructed) :
    (t.is_critical = !(Nat.testBit t.type_code.1 5)) ∧
    (t.is_public = !(Nat.testBit t.type_code.2.1 5)) ∧
    (t.is_reserved_bit_valid = !(Nat.testBit t.type_code.2.2.1 5)) ∧
    (t.is_safe_to_copy = Nat.testBit t.type_code.2.2.2 5) ∧
    (∀ t' : ChunkType, t'.type_code.1 = t.type_code.1 → t'.is_critical = t.is_critical) ∧
    (∀ t' : ChunkType, t'.type_code.2.1 = t.type_code.2.1 → t'.is_public = t.is_public) ∧
    (∀ t' : ChunkType, t'.type_code.2.2.1 = t.type_code.2.2.1 →
      t'.is_reserved_bit_valid = t.is_reserved_bit_valid) ∧
    (∀ t' : ChunkType, t'.type_code.2.2.2 = t.type_code.2.2.2 →
      t'.is_safe_to_copy = t.is_safe_to_copy) := by
  obtain ⟨ha, hb, hc, hd⟩ := (bytes_are_valid_iff _).mp (constructed_valid t h)
  refine ⟨?_, ?_, ?_, ?_, ?_, ?_, ?_, ?_⟩
  · rw [ChunkType.is_critical, BIT_MASK, byte_land32_zero _ (alpha_lt_256 _ ha)]
  · rw [ChunkType.is_public, BIT_MASK, byte_land32_zero _ (alpha_lt_256 _ hb)]
  · rw [ChunkType.is_reserved_bit_valid, BIT_MASK, byte_land32_zero _ (alpha_lt_256 _ hc)]
  · rw [ChunkType.is_safe_to_copy, BIT_MASK, byte_land32_set _ (alpha_lt_256 _ hd)]
  · intro t' he
    rw [ChunkType.is_critical, ChunkType.is_critical, he]
  · intro t' he
    rw [ChunkType.is_public, ChunkType.is_public, he]
  · intro t' he
    rw [ChunkType.is_reserved_bit_valid, ChunkType.is_reserved_bit_valid, he]
  · intro t' he
    rw [ChunkType.is_safe_to_copy, ChunkType.is_safe_to_copy, he]

/-- Witness for C5 at the tag built from `[82, 117, 83, 116]`. -/
theorem claim_C5_witness :
    ((ChunkType.mk (82, 117, 83, 116)).is_critical = !(Nat.testBit 82 5)) ∧
    ((ChunkType.mk (82, 117, 83, 116)).is_public = !(Nat.testBit 117 5)) ∧
    ((ChunkType.mk (82, 117, 83, 116)).is_reserved_bit_valid = !(Nat.testBit 83 5)) ∧
    ((ChunkType.mk (82, 117, 83, 116)).is_safe_to_copy = Nat.testBit 116 5) ∧
    (∀ t' : ChunkType, t'.type_code.1 = 82 →
      t'.is_critical = (ChunkType.mk (82, 117, 83, 116)).is_critical) ∧
    (∀ t' : ChunkType, t'.type_code.2.1 = 117 →
      t'.is_public = (ChunkType.mk (82, 117, 83, 116)).is_public) ∧
    (∀ t' : ChunkType, t'.type_code.2.2.1 = 83 →
      t'.is_reserved_bit_valid = (ChunkType.mk (82, 117, 83, 116)).is_reserved_bit_valid) ∧
    (∀ t' : ChunkType, t'.type_code.2.2.2 = 116 →
      t'.is_safe_to_copy = (ChunkType.mk (82, 117, 83, 116)).is_safe_to_copy) :=
  claim_C5 ⟨(82, 117, 83, 116)⟩ (Or.inl ⟨(82, 117, 83, 116), rfl⟩)

/-- Claim C6: `is_valid` returns exactly `is_reserved_bit_valid`, depends
only on byte 2, and a tag can construct successfully yet report
`is_valid = false` (here `b"Rust" = [82, 117, 115, 116]`, whose third byte
is a lowercase letter). -/
theorem claim_C6 :
    (∀ t : ChunkType, t.is_valid = t.is_reserved_bit_valid) ∧
    (∀ t t' : ChunkType, t'.type_code.2.2.1 = t.type_code.2.2.1 → t'.is_valid = t.is_valid) ∧
    (∃ t : ChunkType, ChunkType.tryFrom (82, 117, 115, 116) = .ok t ∧ t.is_valid = false) := by
  refine ⟨fun t => rfl, ?_, ⟨⟨(82, 117, 115, 116)⟩, rfl, rfl⟩⟩
  intro t t' he
  rw [ChunkType.is_valid, ChunkType.is_valid, ChunkType.is_reserved_bit_valid,
    ChunkType.is_reserved_bit_valid, he]

/-- Witness for C6 at the tags built from `[82, 117, 83, 116]` and
`[99, 117, 83, 99]`, which share byte 2. -/
theorem claim_C6_witness :
    (ChunkType.mk (82, 117, 83, 116)).is_valid =
        (ChunkType.mk (82, 117, 83, 116)).is_reserved_bit_valid ∧
    (ChunkType.mk (99, 117, 83, 99)).is_valid = (ChunkType.mk (82, 117, 83, 116)).is_valid :=
  ⟨claim_C6.1 _, claim_C6.2.1 ⟨(82, 117, 83, 116)⟩ ⟨(99, 117, 83, 99)⟩ rfl⟩

/-- Claim C7: on the byte-construction path, once all 4 bytes pass the
ASCII-alphabetic check the secondary UTF-8 verification always succeeds, so
the distinct UTF-8 error branch is unreachable. -/
theorem claim_C7 (v : Bytes4)
    (h1 : is_ascii_alphabetic v.1 = true) (h2 : is_ascii_alphabetic v.2.1 = true)
    (h3 : is_ascii_alphabetic v.2.2.1 = true) (h4 : is_ascii_alphabetic v.2.2.2 = true) :
    ChunkType.tryFrom v ≠ .error .utf8Error := by
  rw [(tryFrom_ok_iff v ⟨v⟩).mpr ⟨(bytes_are_valid_iff v).mpr ⟨h1, h2, h3, h4⟩, rfl⟩]
  simp

/-- Witness for C7 at `b"bLOb" = [98, 76, 79, 98]`. -/
theorem claim_C7_witness : ChunkType.tryFrom (98, 76, 79, 98) ≠ .error .utf8Error :=
  claim_C7 (98, 76, 79, 98) (by decide) (by decide) (by decide) (by decide)

/-- Claim C8: rendering always succeeds for every validly-constructed tag —
the `unwrap` inside `Display` never panics — and the output is the stored
4 bytes in order with case preserved. -/
theorem claim_C8 (t : ChunkType) (h : t.constructed) :
    t.display = some (bytes4ToList t.type_code) := by
  unfold ChunkType.display
  rw [utf8Valid_of_valid _ (constructed_valid t h)]
  simp

/-- Witness for C8 at the tag built from the string bytes `[98, 76, 79, 98]`. -/
theorem claim_C8_witness :
    (ChunkType.mk (98, 76, 79, 98)).display = some (bytes4ToList (98, 76, 79, 98)) :=
  claim_C8 ⟨(98, 76, 79, 98)⟩ (Or.inr ⟨[98, 76, 79, 98], rfl⟩)

/-- Claim C9: the two construction paths agree. For every string (a valid
UTF-8 byte sequence) whose encoding is exactly 4 bytes, `FromStr` on the
string and `TryFrom` on its 4 encoded bytes either both succeed with equal
tags or both fail with the invalid-bytes error. -/
theorem claim_C9 (s : List Nat) (hutf : utf8Valid s = true) (hlen : s.length = 4) :
    ∃ v, listToBytes4 s = some v ∧
      ((∃ t, ChunkType.fromStr s = .ok t ∧ ChunkType.tryFrom v = .ok t) ∨
       (ChunkType.fromStr s = .error .invalidBytes ∧
        ChunkType.tryFrom v = .error .invalidBytes)) := by
  match s, hlen with
  | [a, b, c, d], _ =>
    refine ⟨(a, b, c, d), rfl, ?_⟩
    cases hb : bytes_are_valid (a, b, c, d) with
    | true =>
      refine Or.inl ⟨⟨(a, b, c, d)⟩, ?_, ?_⟩
      · exact (fromStr_ok_iff _ _).mpr ⟨rfl, hb⟩
      · exact (tryFrom_ok_iff _ _).mpr ⟨hb, rfl⟩
    | false =>
      refine Or.inr ⟨?_, tryFrom_invalid _ hb⟩
      unfold ChunkType.fromStr
      simp [show listToBytes4 [a, b, c, d] = some (a, b, c, d) from rfl, hb]

/-- Witness for C9 at the string bytes of `"Ru1t" = [82, 117, 49, 116]`. -/
theorem claim_C9_witness :
    ∃ v, listToBytes4 [82, 117, 49, 116] = some v ∧
      ((∃ t, ChunkType.fromStr [82, 117, 49, 116] = .ok t ∧ ChunkType.tryFrom v = .ok t) ∨
       (ChunkType.fromStr [82, 117, 49, 116] = .error .invalidBytes ∧
        ChunkType.tryFrom v = .error .invalidBytes)) :=
  claim_C9 [82, 117, 49, 116] (by decide) (by decide)

/-- Claim C10: a string that contains at least one non-ASCII character (in
UTF-8 terms: some encoded byte is `0x80` or above) but whose encoding is
exactly 4 bytes passes the length check and then fails `FromStr` with the
invalid-bytes error, not the wrong-length one. -/
theorem claim_C10 (s : List Nat) (hutf : utf8Valid s = true) (hlen : s.length = 4)
    (hnon : ∃ b ∈ s, 128 ≤ b) :
    ChunkType.fromStr s = .error .invalidBytes := by
  match s, hlen with
  | [a, b, c, d], _ =>
    cases hb : bytes_are_valid (a, b, c, d) with
    | false =>
      unfold ChunkType.fromStr
      simp [show listToBytes4 [a, b, c, d] = some (a, b, c, d) from rfl, hb]
    | true =>
      exfalso
      obtain ⟨x, hx, hge⟩ := hnon
      obtain ⟨ha, hbb, hc, hd⟩ := (bytes_are_valid_iff _).mp hb
      simp only [List.mem_cons, List.not_mem_nil, or_false] at hx
      rcases hx with rfl | rfl | rfl | rfl
      · exact absurd (show x < 128 from alpha_lt_128 _ ha) (by omega)
      · exact absurd (show x < 128 from alpha_lt_128 _ hbb) (by omega)
      · exact absurd (show x < 128 from alpha_lt_128 _ hc) (by omega)
      · exact absurd (show x < 128 from alpha_lt_128 _ hd) (by omega)

/-- Witness for C10 at the encoding of a string of two 2-byte characters,
`[195, 169, 195, 169]`. -/
theorem claim_C10_witness :
    ChunkType.fromStr [195, 169, 195, 169] = .error .invalidBytes :=
  claim_C10 [195, 169, 195, 169] (by decide) (by decide) ⟨195, by decide, by decide⟩

end Pngme
